import Mathlib

/-!
Shallow embedding of the coil config store
(src/coil-daemon/src/configParser.h, src/coil-daemon/src/configParser.cpp).

JSON values are modelled as an inductive mirroring the nlohmann::json
value kinds that the program distinguishes.  Floating point numbers are
modelled as rationals: the program never computes with them, it only
tags and compares them.  The two tables of the store (std::map keyed by
ConfigPath) are modelled as association lists with in-place update; the
file system (existence, mtime and parsed content of the user file, and
the outcome of a write) is passed explicitly to each operation.
-/

/-- JSON value, after the nlohmann value kinds the code branches on:
null, boolean, signed integer, unsigned integer, float, string, array,
object.  nlohmann keeps signed and unsigned integers apart, which is why
the code's classifier has two integer cases. -/
inductive Json where
  | null : Json
  | boolean (b : Bool) : Json
  | number_integer (n : Int) : Json
  | number_unsigned (n : Nat) : Json
  | number_float (q : Rat) : Json
  | string (s : String) : Json
  | array (elems : List Json) : Json
  | object (kvs : List (String × Json)) : Json

/-- nlohmann::json operator==, as used by parseUserConfig's
old_data != setting_data comparison (configParser.cpp:403): values of
the same kind compare componentwise, and numbers of different kinds
compare by numeric value (integer vs unsigned as integers, integer or
unsigned vs float via the float representation). -/
def jeq : Json → Json → Bool
  | .null, .null => true
  | .boolean a, .boolean b => decide (a = b)
  | .number_integer a, .number_integer b => decide (a = b)
  | .number_unsigned a, .number_unsigned b => decide (a = b)
  | .number_integer a, .number_unsigned b => decide (a = (b : Int))
  | .number_unsigned a, .number_integer b => decide ((a : Int) = b)
  | .number_float a, .number_float b => decide (a = b)
  | .number_integer a, .number_float b => decide ((a : Rat) = b)
  | .number_float a, .number_integer b => decide (a = (b : Rat))
  | .number_unsigned a, .number_float b => decide ((a : Rat) = b)
  | .number_float a, .number_unsigned b => decide (a = (b : Rat))
  | .string a, .string b => decide (a = b)
  | .array (x :: xs), .array (y :: ys) =>
      jeq x y && jeq (.array xs) (.array ys)
  | .array [], .array [] => true
  | .object ((k, v) :: kvs), .object ((k2, v2) :: kvs2) =>
      decide (k = k2) && jeq v v2 && jeq (.object kvs) (.object kvs2)
  | .object [], .object [] => true
  | _, _ => false

/-- json.is_null() -/
def isNull : Json → Bool
  | .null => true
  | _ => false

/-- json.is_object() -/
def isObject : Json → Bool
  | .object _ => true
  | _ => false

/-- json.is_string() -/
def isString : Json → Bool
  | .string _ => true
  | _ => false

/-- json.get of std::string, used after an is_string check. -/
def asString : Json → String
  | .string s => s
  | _ => ""

/-- json operator[] with a string key: the field's value when the json
is an object containing the key, null otherwise (on a null json,
operator[] inserts and yields null; template entries here are objects
or absent fields). -/
def jget (j : Json) (key : String) : Json :=
  match j with
  | .object kvs =>
      match kvs.find? (fun kv => kv.1 == key) with
      | some kv => kv.2
      | none => .null
  | _ => .null

/-- ConfigParser::ConfigType (configParser.h:57-68) together with the
value ConfigType::Array that configParser.cpp:466 returns for JSON
arrays.  Array is not an enumerator of the enum declared in the header
(which instead declares ArrayInt, ArrayFloat, ArrayString and a
getArrayType helper at configParser.h:201-204 that is never defined in
src); it is kept here to embed the cpp translation unit as written. -/
inductive ConfigType where
  | None : ConfigType
  | Int : ConfigType
  | Bool : ConfigType
  | Float : ConfigType
  | String : ConfigType
  | ArrayInt : ConfigType
  | ArrayFloat : ConfigType
  | ArrayString : ConfigType
  | Array : ConfigType
deriving DecidableEq

/-- ConfigParser::SetStatus (configParser.h:46-51). -/
inductive SetStatus where
  | Ok : SetStatus
  | NotFound : SetStatus
  | TypeMismatch : SetStatus
  | FileError : SetStatus
deriving DecidableEq

/-- ConfigParser::getConfigType(nlohmann::json) (configParser.cpp:453-471):
a switch on the json value kind.  Note there is no case for booleans,
so a boolean falls through to the default and classifies as None, and
every array classifies as Array without its elements being inspected. -/
def getConfigType : Json → ConfigType
  | .number_integer _ => .Int
  | .number_unsigned _ => .Int
  | .number_float _ => .Float
  | .string _ => .String
  | .array _ => .Array
  | _ => .None

/-- ConfigParser::ConfigPath (configParser.h:18-43). -/
structure ConfigPath where
  m_category : String
  m_name : String
deriving DecidableEq

/-- ConfigParser::ConfigBaseData (configParser.h:71-106). -/
structure ConfigBaseData where
  m_default : Json
  m_type : ConfigType
  m_displayed_name : String
  m_description : String

/-- The ConfigBaseData constructor: the stored type is derived from the
default value by getConfigType (configParser.h:73-82). -/
def ConfigBaseData.make (default_config : Json)
    (displayed_name : String) (description : String) : ConfigBaseData :=
  ⟨default_config, getConfigType default_config, displayed_name, description⟩

/-- std::map::find (as an association list lookup). -/
def mfind {α : Type} (m : List (ConfigPath × α)) (k : ConfigPath) : Option α :=
  match m with
  | [] => none
  | (k2, v) :: rest => if k2 = k then some v else mfind rest k

/-- std::map operator[] assignment: replace the mapping in place when
the key is present, append it otherwise. -/
def minsert {α : Type} (m : List (ConfigPath × α)) (k : ConfigPath) (v : α) :
    List (ConfigPath × α) :=
  match m with
  | [] => [(k, v)]
  | (k2, v2) :: rest =>
      if k2 = k then (k, v) :: rest else (k2, v2) :: minsert rest k v

/-- std::map::erase by key (first occurrence; keys are unique). -/
def merase {α : Type} (m : List (ConfigPath × α)) (k : ConfigPath) :
    List (ConfigPath × α) :=
  match m with
  | [] => []
  | (k2, v2) :: rest =>
      if k2 = k then rest else (k2, v2) :: merase rest k

/-- The observable state of the user configuration file: its
modification time and its parsed content (none when the file is not
valid JSON).  The whole value sits inside an Option: none models a
file that does not exist. -/
structure UserFile where
  mtime : Nat
  doc : Option (List (String × List (String × Json)))

/-- The fields of class ConfigParser (configParser.h:209-229).  The two
paths are fixed configuration and are left out; the file itself is
passed to each operation as an Option UserFile. -/
structure ConfigParser where
  m_base_config : List (ConfigPath × ConfigBaseData)
  m_user_config : List (ConfigPath × Json)
  m_last_write : Nat
  m_updated_config : List ConfigPath
  m_updated : Bool

/-- The two nested iteration loops over a parsed
category -> setting -> value document, flattened to the visited
(category, setting, value) triples in order. -/
def flattenDoc : List (String × List (String × Json)) → List (String × String × Json)
  | [] => []
  | (c, ss) :: rest => ss.map (fun s => (c, s.1, s.2)) ++ flattenDoc rest

/-- The body of the setting loop of ConfigParser::parseUserConfig
(configParser.cpp:365-415): skip a path absent from the base table,
skip a value whose classified type disagrees with the base entry,
record the path in m_updated_config (and raise m_updated) when the
entry is new or its value compares unequal to the stored one, then
write the value into the user table. -/
def mergeStep (p : ConfigParser) (e : String × String × Json) : ConfigParser :=
  let setting_path : ConfigPath := ⟨e.1, e.2.1⟩
  let setting_data : Json := e.2.2
  match mfind p.m_base_config setting_path with
  | none => p
  | some base_data =>
      if base_data.m_type ≠ getConfigType setting_data then p
      else
        let p2 :=
          match mfind p.m_user_config setting_path with
          | some old_data =>
              if jeq old_data setting_data then p
              else { p with
                       m_updated_config := p.m_updated_config ++ [setting_path],
                       m_updated := true }
          | none =>
              { p with
                  m_updated_config := p.m_updated_config ++ [setting_path],
                  m_updated := true }
        { p2 with m_user_config := minsert p2.m_user_config setting_path setting_data }

/-- ConfigParser::parseUserConfig (configParser.cpp:334-417): a missing
or unparsable user file is caught and leaves the state unchanged;
otherwise every (category, setting, value) of the parsed document is
merged by mergeStep. -/
def parseUserConfig (fs : Option UserFile) (p : ConfigParser) : ConfigParser :=
  match fs with
  | none => p
  | some f =>
      match f.doc with
      | none => p
      | some doc => (flattenDoc doc).foldl mergeStep p

/-- ConfigParser::checkConfigFileUpdate (configParser.cpp:421-436): when
the user file exists and its mtime differs from m_last_write, re-parse
it and record the new mtime; a deleted file is ignored. -/
def checkConfigFileUpdate (fs : Option UserFile) (p : ConfigParser) : ConfigParser :=
  match fs with
  | none => p
  | some f =>
      if p.m_last_write ≠ f.mtime then
        { parseUserConfig fs p with m_last_write := f.mtime }
      else p

/-- ConfigParser::getConfig (configParser.cpp:46-70): drift check first,
then the user override when present, else the base default, else
nullopt. -/
def getConfig (fs : Option UserFile) (p : ConfigParser) (config_path : ConfigPath) :
    Option Json × ConfigParser :=
  let p1 := checkConfigFileUpdate fs p
  match mfind p1.m_user_config config_path with
  | some v => (some v, p1)
  | none =>
      match mfind p1.m_base_config config_path with
      | some base_data => (some base_data.m_default, p1)
      | none => (none, p1)

/-- ConfigParser::setConfig (configParser.cpp:81-156).  The outcome of
storeUserCofig is the explicit argument store: none models a write that
throws, some t a successful write after which the file's mtime is t
(storeUserCofig records it into m_last_write, configParser.cpp:222). -/
def setConfig (fs : Option UserFile) (store : Option Nat) (p : ConfigParser)
    (config_path : ConfigPath) (data : Json) : SetStatus × ConfigParser :=
  let p1 := checkConfigFileUpdate fs p
  match mfind p1.m_base_config config_path with
  | none => (.NotFound, p1)
  | some base_data =>
      if base_data.m_type ≠ getConfigType data then (.TypeMismatch, p1)
      else
        match mfind p1.m_user_config config_path with
        | none =>
            let p2 := { p1 with m_user_config := minsert p1.m_user_config config_path data }
            match store with
            | none =>
                (.FileError, { p2 with m_user_config := merase p2.m_user_config config_path })
            | some t =>
                (.Ok, { p2 with
                          m_last_write := t,
                          m_updated := true,
                          m_updated_config := p2.m_updated_config ++ [config_path] })
        | some old_data =>
            let p2 := { p1 with m_user_config := minsert p1.m_user_config config_path data }
            match store with
            | none =>
                (.FileError,
                 { p2 with m_user_config := minsert p2.m_user_config config_path old_data })
            | some t =>
                (.Ok, { p2 with
                          m_last_write := t,
                          m_updated := true,
                          m_updated_config := p2.m_updated_config ++ [config_path] })

/-- ConfigParser::updatedConfigs (configParser.cpp:160-166): return the
change queue and clear it. -/
def updatedConfigs (p : ConfigParser) : List ConfigPath × ConfigParser :=
  (p.m_updated_config, { p with m_updated_config := [] })

/-- ConfigParser::wasUpdated (configParser.cpp:170-180): drift check,
then return the flag and clear it. -/
def wasUpdated (fs : Option UserFile) (p : ConfigParser) : Bool × ConfigParser :=
  let p1 := checkConfigFileUpdate fs p
  (p1.m_updated, { p1 with m_updated := false })

/-- The validation of one template entry in ConfigParser::parseBaseConfig
(configParser.cpp:256-328): the entry is dropped when default,
displayed_name or description is missing (null), when default is an
object, or when displayed_name or description is not a string; an
accepted entry is stored with its type derived from the default. -/
def parseBaseConfigEntry (category_name : String) (setting_name : String)
    (setting : Json) (m : List (ConfigPath × ConfigBaseData)) :
    List (ConfigPath × ConfigBaseData) :=
  let default_data := jget setting "default"
  let displayed_name := jget setting "displayed_name"
  let description := jget setting "description"
  if isNull default_data then m
  else if isNull displayed_name then m
  else if isNull description then m
  else if isObject default_data then m
  else if !isString displayed_name then m
  else if !isString description then m
  else
    minsert m ⟨category_name, setting_name⟩
      (ConfigBaseData.make default_data (asString displayed_name) (asString description))

/-- ConfigParser::parseBaseConfig (configParser.cpp:226-330), applied to
an already parsed template document (an unparsable or missing template
file throws and the parser is never constructed, which is outside the
state model). -/
def parseBaseConfig (tmpl : List (String × List (String × Json))) :
    List (ConfigPath × ConfigBaseData) :=
  (flattenDoc tmpl).foldl
    (fun m e => parseBaseConfigEntry e.1 e.2.1 e.2.2 m) []

/-- The ConfigParser constructor (configParser.cpp:20-38): build the
base table, merge the user file into an empty user table, record the
file's mtime when it exists (the default constructed file time is
modelled as 0), then clear the change queue and the flag. -/
def ConfigParser.construct (tmpl : List (String × List (String × Json)))
    (fs : Option UserFile) : ConfigParser :=
  let p0 : ConfigParser :=
    { m_base_config := parseBaseConfig tmpl,
      m_user_config := [],
      m_last_write := 0,
      m_updated_config := [],
      m_updated := false }
  let p1 := parseUserConfig fs p0
  let p2 :=
    match fs with
    | some f => { p1 with m_last_write := f.mtime }
    | none => p1
  { p2 with m_updated_config := [], m_updated := false }

/-- The spec's example template: general.mirroring with a boolean
default. -/
def mirroringTemplate : List (String × List (String × Json)) :=
  [("general",
    [("mirroring",
      Json.object
        [("default", Json.boolean false),
         ("displayed_name", Json.string "Mirroring"),
         ("description", Json.string "Mirror the display")])])]

/-- A parser whose base table holds the spec's example video.dpi entry
(default 96, an integer) and whose user table is empty. -/
def pDemo : ConfigParser :=
  { m_base_config :=
      [(⟨"video", "dpi"⟩,
        ConfigBaseData.make (Json.number_unsigned 96) "DPI" "Display resolution")],
    m_user_config := [],
    m_last_write := 0,
    m_updated_config := [],
    m_updated := false }

/-- pDemo with an existing user override video.dpi = 120. -/
def pDemoSet : ConfigParser :=
  { pDemo with m_user_config := [(⟨"video", "dpi"⟩, Json.number_integer 120)] }

/-- A user file document setting video.dpi to 120. -/
def dpiDoc : List (String × List (String × Json)) :=
  [("video", [("dpi", Json.number_integer 120)])]

/-- A user file document touching only general.other, a key different
from video.dpi. -/
def otherDoc : List (String × List (String × Json)) :=
  [("general", [("other", Json.number_integer 1)])]

/-- The store invariant on a pair of tables: every path of the user
table is in the base table and its value's classified type equals the
base entry's type. -/
def TableInvariant (base : List (ConfigPath × ConfigBaseData))
    (user : List (ConfigPath × Json)) : Prop :=
  ∀ path v, mfind user path = some v →
    ∃ bd, mfind base path = some bd ∧ bd.m_type = getConfigType v

/-- The store invariant of claim C9 on a parser state. -/
def ConfigInvariant (p : ConfigParser) : Prop :=
  TableInvariant p.m_base_config p.m_user_config

/-! ### Association list lemmas -/

theorem mfind_minsert_self {α : Type} (m : List (ConfigPath × α)) (k : ConfigPath) (v : α) :
    mfind (minsert m k v) k = some v := by
  induction m with
  | nil => simp [minsert, mfind]
  | cons hd tl ih =>
      obtain ⟨k2, v2⟩ := hd
      by_cases h : k2 = k
      · simp [minsert, mfind, h]
      · simp [minsert, mfind, h, ih]

theorem mfind_minsert_ne {α : Type} (m : List (ConfigPath × α)) (k k2 : ConfigPath) (v : α)
    (h : k ≠ k2) : mfind (minsert m k v) k2 = mfind m k2 := by
  induction m with
  | nil => simp [minsert, mfind, h]
  | cons hd tl ih =>
      obtain ⟨k3, v3⟩ := hd
      by_cases h3 : k3 = k
      · subst h3
        simp [minsert, mfind, h]
      · simp [minsert, mfind, h3, ih]

theorem merase_minsert_of_not_mem {α : Type} (m : List (ConfigPath × α)) (k : ConfigPath)
    (v : α) (h : mfind m k = none) : merase (minsert m k v) k = m := by
  induction m with
  | nil => simp [minsert, merase]
  | cons hd tl ih =>
      obtain ⟨k2, v2⟩ := hd
      by_cases h2 : k2 = k
      · simp [mfind, h2] at h
      · simp [mfind, h2] at h
        simp [minsert, merase, h2, ih h]

theorem minsert_minsert_self {α : Type} (m : List (ConfigPath × α)) (k : ConfigPath)
    (v w : α) : minsert (minsert m k v) k w = minsert m k w := by
  induction m with
  | nil => simp [minsert]
  | cons hd tl ih =>
      obtain ⟨k2, v2⟩ := hd
      by_cases h2 : k2 = k
      · simp [minsert, h2]
      · simp [minsert, h2, ih]

theorem minsert_self_of_mfind {α : Type} (m : List (ConfigPath × α)) (k : ConfigPath)
    (v : α) (h : mfind m k = some v) : minsert m k v = m := by
  induction m with
  | nil => simp [mfind] at h
  | cons hd tl ih =>
      obtain ⟨k2, v2⟩ := hd
      by_cases h2 : k2 = k
      · simp [mfind, h2] at h
        simp [minsert, h2, h]
      · simp [mfind, h2] at h
        simp [minsert, h2, ih h]

theorem mfind_some_mem {α : Type} (m : List (ConfigPath × α)) (k : ConfigPath) (v : α)
    (h : mfind m k = some v) : (k, v) ∈ m := by
  induction m with
  | nil => simp [mfind] at h
  | cons hd tl ih =>
      obtain ⟨k2, v2⟩ := hd
      by_cases h2 : k2 = k
      · subst h2
        simp [mfind] at h
        simp [h]
      · simp [mfind, h2] at h
        exact List.mem_cons_of_mem _ (ih h)

/-! ### Merge loop lemmas -/

theorem mergeStep_skip_notInBase (p : ConfigParser) (e : String × String × Json)
    (hb : mfind p.m_base_config ⟨e.1, e.2.1⟩ = none) : mergeStep p e = p := by
  unfold mergeStep
  simp [hb]

theorem mergeStep_skip_wrongType (p : ConfigParser) (e : String × String × Json)
    (bd : ConfigBaseData) (hb : mfind p.m_base_config ⟨e.1, e.2.1⟩ = some bd)
    (ht : bd.m_type ≠ getConfigType e.2.2) : mergeStep p e = p := by
  unfold mergeStep
  simp [hb, ht]

theorem mergeStep_newEntry (p : ConfigParser) (e : String × String × Json)
    (bd : ConfigBaseData) (hb : mfind p.m_base_config ⟨e.1, e.2.1⟩ = some bd)
    (ht : bd.m_type = getConfigType e.2.2)
    (hu : mfind p.m_user_config ⟨e.1, e.2.1⟩ = none) :
    mergeStep p e =
      { p with m_user_config := minsert p.m_user_config ⟨e.1, e.2.1⟩ e.2.2,
               m_updated_config := p.m_updated_config ++ [⟨e.1, e.2.1⟩],
               m_updated := true } := by
  unfold mergeStep
  simp [hb, ht, hu]

theorem mergeStep_changedEntry (p : ConfigParser) (e : String × String × Json)
    (bd : ConfigBaseData) (old : Json)
    (hb : mfind p.m_base_config ⟨e.1, e.2.1⟩ = some bd)
    (ht : bd.m_type = getConfigType e.2.2)
    (hu : mfind p.m_user_config ⟨e.1, e.2.1⟩ = some old)
    (he : jeq old e.2.2 = false) :
    mergeStep p e =
      { p with m_user_config := minsert p.m_user_config ⟨e.1, e.2.1⟩ e.2.2,
               m_updated_config := p.m_updated_config ++ [⟨e.1, e.2.1⟩],
               m_updated := true } := by
  unfold mergeStep
  simp [hb, ht, hu, he]

theorem mergeStep_sameEntry (p : ConfigParser) (e : String × String × Json)
    (bd : ConfigBaseData) (old : Json)
    (hb : mfind p.m_base_config ⟨e.1, e.2.1⟩ = some bd)
    (ht : bd.m_type = getConfigType e.2.2)
    (hu : mfind p.m_user_config ⟨e.1, e.2.1⟩ = some old)
    (he : jeq old e.2.2 = true) :
    mergeStep p e =
      { p with m_user_config := minsert p.m_user_config ⟨e.1, e.2.1⟩ e.2.2 } := by
  unfold mergeStep
  simp [hb, ht, hu, he]

theorem mergeStep_base (p : ConfigParser) (e : String × String × Json) :
    (mergeStep p e).m_base_config = p.m_base_config := by
  rcases hb : mfind p.m_base_config ⟨e.1, e.2.1⟩ with _ | bd
  · rw [mergeStep_skip_notInBase p e hb]
  · by_cases ht : bd.m_type = getConfigType e.2.2
    · rcases hu : mfind p.m_user_config ⟨e.1, e.2.1⟩ with _ | old
      · rw [mergeStep_newEntry p e bd hb ht hu]
      · cases he : jeq old e.2.2
        · rw [mergeStep_changedEntry p e bd old hb ht hu he]
        · rw [mergeStep_sameEntry p e bd old hb ht hu he]
    · rw [mergeStep_skip_wrongType p e bd hb ht]

theorem foldl_mergeStep_base (l : List (String × String × Json)) (p : ConfigParser) :
    (l.foldl mergeStep p).m_base_config = p.m_base_config := by
  induction l generalizing p with
  | nil => rfl
  | cons e tl ih => rw [List.foldl_cons, ih, mergeStep_base]

theorem mergeStep_queue_mono (p : ConfigParser) (e : String × String × Json)
    (x : ConfigPath) (h : x ∈ p.m_updated_config) :
    x ∈ (mergeStep p e).m_updated_config := by
  rcases hb : mfind p.m_base_config ⟨e.1, e.2.1⟩ with _ | bd
  · rw [mergeStep_skip_notInBase p e hb]; exact h
  · by_cases ht : bd.m_type = getConfigType e.2.2
    · rcases hu : mfind p.m_user_config ⟨e.1, e.2.1⟩ with _ | old
      · rw [mergeStep_newEntry p e bd hb ht hu]
        exact List.mem_append_left _ h
      · cases he : jeq old e.2.2
        · rw [mergeStep_changedEntry p e bd old hb ht hu he]
          exact List.mem_append_left _ h
        · rw [mergeStep_sameEntry p e bd old hb ht hu he]; exact h
    · rw [mergeStep_skip_wrongType p e bd hb ht]; exact h

theorem foldl_mergeStep_queue_mono (l : List (String × String × Json)) (p : ConfigParser)
    (x : ConfigPath) (h : x ∈ p.m_updated_config) :
    x ∈ (l.foldl mergeStep p).m_updated_config := by
  induction l generalizing p with
  | nil => exact h
  | cons e tl ih => exact ih _ (mergeStep_queue_mono p e x h)

theorem mergeStep_flag_mono (p : ConfigParser) (e : String × String × Json)
    (h : p.m_updated = true) : (mergeStep p e).m_updated = true := by
  rcases hb : mfind p.m_base_config ⟨e.1, e.2.1⟩ with _ | bd
  · rw [mergeStep_skip_notInBase p e hb]; exact h
  · by_cases ht : bd.m_type = getConfigType e.2.2
    · rcases hu : mfind p.m_user_config ⟨e.1, e.2.1⟩ with _ | old
      · rw [mergeStep_newEntry p e bd hb ht hu]
      · cases he : jeq old e.2.2
        · rw [mergeStep_changedEntry p e bd old hb ht hu he]
        · rw [mergeStep_sameEntry p e bd old hb ht hu he]; exact h
    · rw [mergeStep_skip_wrongType p e bd hb ht]; exact h

theorem foldl_mergeStep_flag_mono (l : List (String × String × Json)) (p : ConfigParser)
    (h : p.m_updated = true) : (l.foldl mergeStep p).m_updated = true := by
  induction l generalizing p with
  | nil => exact h
  | cons e tl ih => exact ih _ (mergeStep_flag_mono p e h)

theorem mergeStep_find_ne (p : ConfigParser) (e : String × String × Json)
    (k : ConfigPath) (h : (⟨e.1, e.2.1⟩ : ConfigPath) ≠ k) :
    mfind (mergeStep p e).m_user_config k = mfind p.m_user_config k := by
  rcases hb : mfind p.m_base_config ⟨e.1, e.2.1⟩ with _ | bd
  · rw [mergeStep_skip_notInBase p e hb]
  · by_cases ht : bd.m_type = getConfigType e.2.2
    · rcases hu : mfind p.m_user_config ⟨e.1, e.2.1⟩ with _ | old
      · rw [mergeStep_newEntry p e bd hb ht hu]
        exact mfind_minsert_ne _ _ _ _ h
      · cases he : jeq old e.2.2
        · rw [mergeStep_changedEntry p e bd old hb ht hu he]
          exact mfind_minsert_ne _ _ _ _ h
        · rw [mergeStep_sameEntry p e bd old hb ht hu he]
          exact mfind_minsert_ne _ _ _ _ h
    · rw [mergeStep_skip_wrongType p e bd hb ht]

theorem foldl_mergeStep_find_not_in (l : List (String × String × Json)) (p : ConfigParser)
    (k : ConfigPath) (h : ∀ w, (k.m_category, k.m_name, w) ∉ l) :
    mfind (l.foldl mergeStep p).m_user_config k = mfind p.m_user_config k := by
  induction l generalizing p with
  | nil => rfl
  | cons e tl ih =>
      obtain ⟨c, n, v⟩ := e
      have hk : (⟨c, n⟩ : ConfigPath) ≠ k := by
        intro hcp
        rw [ConfigPath.mk.injEq] at hcp
        exact h v (by rw [← hcp.1, ← hcp.2]; exact List.mem_cons_self _ _)
      rw [List.foldl_cons,
          ih (mergeStep p (c, n, v)) (fun w hw => h w (List.mem_cons_of_mem _ hw)),
          mergeStep_find_ne p (c, n, v) k hk]

theorem foldl_mergeStep_trigger (l : List (String × String × Json)) (p : ConfigParser)
    (c n : String) (v : Json) (bd : ConfigBaseData)
    (hmem : (c, n, v) ∈ l)
    (hdist : l.Pairwise (fun a b => (a.1, a.2.1) ≠ (b.1, b.2.1)))
    (hb : mfind p.m_base_config ⟨c, n⟩ = some bd)
    (ht : bd.m_type = getConfigType v)
    (hu : ∀ w, mfind p.m_user_config ⟨c, n⟩ = some w → jeq w v = false) :
    (⟨c, n⟩ : ConfigPath) ∈ (l.foldl mergeStep p).m_updated_config ∧
      (l.foldl mergeStep p).m_updated = true := by
  induction l generalizing p with
  | nil => exact absurd hmem (List.not_mem_nil _)
  | cons e tl ih =>
      rw [List.foldl_cons]
      rcases List.mem_cons.mp hmem with heq | htl
      · subst heq
        have hstep : (mergeStep p (c, n, v)).m_updated_config =
              p.m_updated_config ++ [⟨c, n⟩] ∧ (mergeStep p (c, n, v)).m_updated = true := by
          rcases hu2 : mfind p.m_user_config ⟨c, n⟩ with _ | old
          · rw [mergeStep_newEntry p (c, n, v) bd hb ht hu2]
            exact ⟨rfl, rfl⟩
          · rw [mergeStep_changedEntry p (c, n, v) bd old hb ht hu2 (hu old hu2)]
            exact ⟨rfl, rfl⟩
        constructor
        · exact foldl_mergeStep_queue_mono tl _ _
            (by rw [hstep.1]; exact List.mem_append_right _ (List.mem_singleton_self _))
        · exact foldl_mergeStep_flag_mono tl _ hstep.2
      · have hne : ((e.1, e.2.1) : String × String) ≠ (c, n) :=
          (List.pairwise_cons.mp hdist).1 (c, n, v) htl
        have hk : (⟨e.1, e.2.1⟩ : ConfigPath) ≠ (⟨c, n⟩ : ConfigPath) := by
          intro hcp
          rw [ConfigPath.mk.injEq] at hcp
          exact hne (by rw [hcp.1, hcp.2])
        refine ih (mergeStep p e) htl (List.pairwise_cons.mp hdist).2 ?_ ?_
        · rw [mergeStep_base]; exact hb
        · intro w hw
          rw [mergeStep_find_ne p e _ hk] at hw
          exact hu w hw

/-! ### Claims -/

/-- C1: the claim states that classify maps a JSON boolean to
ConfigType Bool (so general.mirroring with default false is stored in
the Base table with type Bool) and that no None-classified value is
ever accepted into the User table.  The code does the opposite on all
three counts: getConfigType has no boolean case, so a boolean
classifies as None; the general.mirroring template entry is stored
with type None; and setConfig then accepts a boolean (None matches
None) and stores a None-classified value in the User table. -/
theorem c1_boolean_classifies_none :
    getConfigType (Json.boolean false) = ConfigType.None ∧
    getConfigType (Json.boolean false) ≠ ConfigType.Bool ∧
    mfind (parseBaseConfig mirroringTemplate) ⟨"general", "mirroring"⟩ =
      some (ConfigBaseData.make (Json.boolean false) "Mirroring" "Mirror the display") ∧
    (ConfigBaseData.make (Json.boolean false) "Mirroring" "Mirror the display").m_type =
      ConfigType.None ∧
    (setConfig none (some 1) (ConfigParser.construct mirroringTemplate none)
        ⟨"general", "mirroring"⟩ (Json.boolean true)).1 = SetStatus.Ok ∧
    mfind (setConfig none (some 1) (ConfigParser.construct mirroringTemplate none)
        ⟨"general", "mirroring"⟩ (Json.boolean true)).2.m_user_config
        ⟨"general", "mirroring"⟩ = some (Json.boolean true) ∧
    getConfigType (Json.boolean true) = ConfigType.None :=
  ⟨rfl, by decide, rfl, rfl, rfl, rfl, rfl⟩

/-- C2: the claim states that classify inspects every array element and
returns ArrayInt, ArrayFloat or ArrayString for a homogeneous array and
None for a mixed one.  The code's getConfigType instead returns the
single tag Array for every array, without inspecting any element: a
mixed array does not classify as None, and a homogeneous integer array
does not classify as ArrayInt. -/
theorem c2_array_classified_blindly :
    getConfigType (Json.array [Json.number_integer 1, Json.string "a"]) =
      ConfigType.Array ∧
    getConfigType (Json.array [Json.number_integer 1, Json.string "a"]) ≠
      ConfigType.None ∧
    getConfigType (Json.array [Json.number_integer 1, Json.number_integer 2]) =
      ConfigType.Array ∧
    getConfigType (Json.array [Json.number_integer 1, Json.number_integer 2]) ≠
      ConfigType.ArrayInt :=
  ⟨rfl, by decide, rfl, by decide⟩

/-- C3: when persistence fails during set (modelled by store = none),
set returns FileError and the whole parser state is exactly as before
the call: the staged entry is removed again when it was newly inserted,
or restored to its old value, and the change queue and the updated flag
are untouched.  The hypothesis hq says the drift check at the top of
the call finds nothing to do (the user file was not edited externally
at the same moment), which is the frame the claim speaks about. -/
theorem c3_set_fileError_rollback (fs : Option UserFile) (p : ConfigParser)
    (config_path : ConfigPath) (data : Json) (bd : ConfigBaseData)
    (hq : checkConfigFileUpdate fs p = p)
    (hb : mfind p.m_base_config config_path = some bd)
    (ht : bd.m_type = getConfigType data) :
    setConfig fs none p config_path data = (SetStatus.FileError, p) := by
  simp only [setConfig, hq, hb]
  rw [if_neg (fun hne => hne ht)]
  rcases hu : mfind p.m_user_config config_path with _ | old
  · rw [merase_minsert_of_not_mem _ _ _ hu]
  · simp only [minsert_minsert_self, minsert_self_of_mfind _ _ _ hu]

/-- C3 witness: a failing write of video.dpi = 120 against pDemo leaves
the state equal to pDemo and returns FileError. -/
theorem c3_witness :
    setConfig none none pDemo ⟨"video", "dpi"⟩ (Json.number_integer 120) =
      (SetStatus.FileError, pDemo) :=
  c3_set_fileError_rollback none pDemo ⟨"video", "dpi"⟩ (Json.number_integer 120)
    (ConfigBaseData.make (Json.number_unsigned 96) "DPI" "Display resolution")
    rfl rfl rfl

theorem parseUserConfig_base (fs : Option UserFile) (p : ConfigParser) :
    (parseUserConfig fs p).m_base_config = p.m_base_config := by
  rcases fs with _ | ⟨mt, _ | doc⟩
  · rfl
  · rfl
  · exact foldl_mergeStep_base _ _

theorem checkConfigFileUpdate_base (fs : Option UserFile) (p : ConfigParser) :
    (checkConfigFileUpdate fs p).m_base_config = p.m_base_config := by
  rcases fs with _ | f
  · rfl
  · simp only [checkConfigFileUpdate]
    by_cases h : p.m_last_write = f.mtime
    · simp [h]
    · simp [h, parseUserConfig_base]

/-- C4: set on a path absent from the base table returns NotFound, and
set with a value whose classified type disagrees with the base entry
returns TypeMismatch; in both cases the whole parser state (user table,
change queue and flag) is exactly the state before the call.  The
hypothesis hq again frames out a simultaneous external edit of the
user file. -/
theorem c4_set_notfound_typemismatch_frame (fs : Option UserFile) (store : Option Nat)
    (p : ConfigParser) (config_path : ConfigPath) (data : Json)
    (hq : checkConfigFileUpdate fs p = p) :
    (mfind p.m_base_config config_path = none →
      setConfig fs store p config_path data = (SetStatus.NotFound, p)) ∧
    (∀ bd, mfind p.m_base_config config_path = some bd →
      bd.m_type ≠ getConfigType data →
      setConfig fs store p config_path data = (SetStatus.TypeMismatch, p)) := by
  constructor
  · intro hb
    simp only [setConfig, hq, hb]
  · intro bd hb ht
    simp only [setConfig, hq, hb]
    rw [if_pos ht]

/-- C4 witness: on pDemo, set of a missing path returns NotFound and a
string written to the integer setting video.dpi returns TypeMismatch,
both leaving the state equal to pDemo. -/
theorem c4_witness :
    setConfig none (some 1) pDemo ⟨"missing", "path"⟩ (Json.number_integer 1) =
      (SetStatus.NotFound, pDemo) ∧
    setConfig none (some 1) pDemo ⟨"video", "dpi"⟩ (Json.string "high") =
      (SetStatus.TypeMismatch, pDemo) :=
  ⟨(c4_set_notfound_typemismatch_frame none (some 1) pDemo ⟨"missing", "path"⟩
      (Json.number_integer 1) rfl).1 rfl,
   (c4_set_notfound_typemismatch_frame none (some 1) pDemo ⟨"video", "dpi"⟩
      (Json.string "high") rfl).2
      (ConfigBaseData.make (Json.number_unsigned 96) "DPI" "Display resolution")
      rfl (by decide)⟩

/-- C5: for a path present in the base table and a value of the
matching classified type, set with a successful write returns Ok and a
following get (against the file mtime recorded by that write) returns
exactly the written value. -/
theorem c5_set_get_roundtrip (fs : Option UserFile) (p : ConfigParser)
    (config_path : ConfigPath) (data : Json) (bd : ConfigBaseData) (t : Nat)
    (doc2 : Option (List (String × List (String × Json))))
    (hb : mfind p.m_base_config config_path = some bd)
    (ht : bd.m_type = getConfigType data) :
    (setConfig fs (some t) p config_path data).1 = SetStatus.Ok ∧
    (getConfig (some ⟨t, doc2⟩) (setConfig fs (some t) p config_path data).2
        config_path).1 = some data := by
  have hb1 : mfind (checkConfigFileUpdate fs p).m_base_config config_path = some bd := by
    rw [checkConfigFileUpdate_base]; exact hb
  simp only [setConfig, hb1]
  rw [if_neg (fun hne => hne ht)]
  rcases hu : mfind (checkConfigFileUpdate fs p).m_user_config config_path with _ | old
  · exact ⟨rfl, by simp [getConfig, checkConfigFileUpdate, mfind_minsert_self]⟩
  · exact ⟨rfl, by simp [getConfig, checkConfigFileUpdate, mfind_minsert_self]⟩

/-- C5 witness: set video.dpi to 120 on pDemo, then get returns 120. -/
theorem c5_witness :
    (setConfig none (some 1) pDemo ⟨"video", "dpi"⟩ (Json.number_integer 120)).1 =
      SetStatus.Ok ∧
    (getConfig (some ⟨1, none⟩)
        (setConfig none (some 1) pDemo ⟨"video", "dpi"⟩ (Json.number_integer 120)).2
        ⟨"video", "dpi"⟩).1 = some (Json.number_integer 120) :=
  c5_set_get_roundtrip none pDemo ⟨"video", "dpi"⟩ (Json.number_integer 120)
    (ConfigBaseData.make (Json.number_unsigned 96) "DPI" "Display resolution")
    1 none rfl rfl

/-- C6: get returns the user override when present, otherwise the base
default when the path is in the base table, and returns nothing exactly
when the path is absent from the base table.  The hypothesis hinv is
the store invariant (claim C9) that every user entry's path is in the
base table; hq frames out a simultaneous external edit. -/
theorem c6_get_layering (fs : Option UserFile) (p : ConfigParser) (config_path : ConfigPath)
    (hq : checkConfigFileUpdate fs p = p)
    (hinv : ∀ e ∈ p.m_user_config, (mfind p.m_base_config e.1).isSome = true) :
    (∀ v, mfind p.m_user_config config_path = some v →
        (getConfig fs p config_path).1 = some v) ∧
    (mfind p.m_user_config config_path = none →
      ∀ bd, mfind p.m_base_config config_path = some bd →
        (getConfig fs p config_path).1 = some bd.m_default) ∧
    ((getConfig fs p config_path).1 = none ↔
      mfind p.m_base_config config_path = none) := by
  refine ⟨?_, ?_, ?_⟩
  · intro v hv
    simp only [getConfig, hq, hv]
  · intro hv bd hb
    simp only [getConfig, hq, hv, hb]
  · constructor
    · intro hres
      rcases hv : mfind p.m_user_config config_path with _ | v
      · rcases hb : mfind p.m_base_config config_path with _ | bd
        · rfl
        · rw [getConfig] at hres
          simp [hq, hv, hb] at hres
      · rw [getConfig] at hres
        simp [hq, hv] at hres
    · intro hb
      have hv : mfind p.m_user_config config_path = none := by
        rcases hv : mfind p.m_user_config config_path with _ | v
        · rfl
        · have hs := hinv (config_path, v) (mfind_some_mem _ _ _ hv)
          rw [hb] at hs
          simp at hs
      simp only [getConfig, hq, hv, hb]

/-- C6 witness: on pDemoSet the override 120 is returned; on pDemo the
base default 96 is returned; a path absent from the base table is
reported as not found. -/
theorem c6_witness :
    (getConfig none pDemoSet ⟨"video", "dpi"⟩).1 = some (Json.number_integer 120) ∧
    (getConfig none pDemo ⟨"video", "dpi"⟩).1 = some (Json.number_unsigned 96) ∧
    (getConfig none pDemo ⟨"missing", "path"⟩).1 = none :=
  ⟨(c6_get_layering none pDemoSet ⟨"video", "dpi"⟩ rfl (by decide)).1
      (Json.number_integer 120) rfl,
   (c6_get_layering none pDemo ⟨"video", "dpi"⟩ rfl (by decide)).2.1 rfl
      (ConfigBaseData.make (Json.number_unsigned 96) "DPI" "Display resolution") rfl,
   (c6_get_layering none pDemo ⟨"missing", "path"⟩ rfl (by decide)).2.2.mpr rfl⟩

/-- C7: when the user file's mtime differs from the recorded one and
the file contains an entry (c, n, v) whose path is in the base table
with the matching classified type and whose value is new or different
from the stored one, the drift check performed at the top of every
get/set/wasUpdated re-parses the file, raises the updated flag and
records the path, so wasUpdated returns true and updatedConfigs
includes the path.  The pairwise hypothesis states that the parsed
document's (category, name) keys are distinct, which holds of any
document parsed from JSON objects (maps). -/
theorem c7_external_edit_detected (p : ConfigParser) (t1 : Nat)
    (doc : List (String × List (String × Json))) (c n : String) (v : Json)
    (bd : ConfigBaseData)
    (hm : p.m_last_write ≠ t1)
    (hmem : (c, n, v) ∈ flattenDoc doc)
    (hdist : (flattenDoc doc).Pairwise (fun a b => (a.1, a.2.1) ≠ (b.1, b.2.1)))
    (hb : mfind p.m_base_config ⟨c, n⟩ = some bd)
    (ht : bd.m_type = getConfigType v)
    (hu : ∀ w, mfind p.m_user_config ⟨c, n⟩ = some w → jeq w v = false) :
    (⟨c, n⟩ : ConfigPath) ∈
      (checkConfigFileUpdate (some ⟨t1, some doc⟩) p).m_updated_config ∧
    (checkConfigFileUpdate (some ⟨t1, some doc⟩) p).m_updated = true ∧
    (wasUpdated (some ⟨t1, some doc⟩) p).1 = true ∧
    (⟨c, n⟩ : ConfigPath) ∈
      (updatedConfigs (wasUpdated (some ⟨t1, some doc⟩) p).2).1 := by
  have hmain := foldl_mergeStep_trigger (flattenDoc doc) p c n v bd hmem hdist hb ht hu
  have hch : checkConfigFileUpdate (some ⟨t1, some doc⟩) p =
      { (flattenDoc doc).foldl mergeStep p with m_last_write := t1 } := by
    simp only [checkConfigFileUpdate]
    rw [if_pos hm]
    rfl
  refine ⟨?_, ?_, ?_, ?_⟩
  · rw [hch]; exact hmain.1
  · rw [hch]; exact hmain.2
  · simp only [wasUpdated, hch]; exact hmain.2
  · simp only [wasUpdated, updatedConfigs, hch]; exact hmain.1

/-- C7 witness: pDemo last saw mtime 0; the file at mtime 1 sets
video.dpi = 120, a valid new entry; wasUpdated reports true and the
path is in the drained queue. -/
theorem c7_witness :
    (⟨"video", "dpi"⟩ : ConfigPath) ∈
      (checkConfigFileUpdate (some ⟨1, some dpiDoc⟩) pDemo).m_updated_config ∧
    (checkConfigFileUpdate (some ⟨1, some dpiDoc⟩) pDemo).m_updated = true ∧
    (wasUpdated (some ⟨1, some dpiDoc⟩) pDemo).1 = true ∧
    (⟨"video", "dpi"⟩ : ConfigPath) ∈
      (updatedConfigs (wasUpdated (some ⟨1, some dpiDoc⟩) pDemo).2).1 := by
  refine c7_external_edit_detected pDemo 1 dpiDoc "video" "dpi"
    (Json.number_integer 120)
    (ConfigBaseData.make (Json.number_unsigned 96) "DPI" "Display resolution")
    (by decide) ?_ ?_ rfl rfl ?_
  · show ("video", "dpi", Json.number_integer 120) ∈
      [("video", "dpi", Json.number_integer 120)]
    exact List.mem_singleton_self _
  · show List.Pairwise _ [("video", "dpi", Json.number_integer 120)]
    exact List.pairwise_singleton _ _
  · intro w hw
    exact Option.noConfusion hw

theorem checkConfigFileUpdate_find_not_in (t : Nat)
    (doc : List (String × List (String × Json))) (p : ConfigParser) (k : ConfigPath)
    (hnot : ∀ w, (k.m_category, k.m_name, w) ∉ flattenDoc doc) :
    mfind (checkConfigFileUpdate (some ⟨t, some doc⟩) p).m_user_config k =
      mfind p.m_user_config k := by
  simp only [checkConfigFileUpdate]
  by_cases hm : p.m_last_write = t
  · rw [if_neg (fun hne => hne hm)]
  · rw [if_pos hm]
    exact foldl_mergeStep_find_not_in _ _ _ hnot

/-- C8: the user-file merge never removes entries.  If a path holds an
override, then a get after the file has been deleted (fs = none) still
returns the override, and a get after the file has been re-parsed with
that key absent from its content also still returns the override. -/
theorem c8_merge_additive (p : ConfigParser) (config_path : ConfigPath) (v : Json)
    (hv : mfind p.m_user_config config_path = some v) :
    (getConfig none p config_path).1 = some v ∧
    (∀ t doc,
      (∀ w, (config_path.m_category, config_path.m_name, w) ∉ flattenDoc doc) →
      (getConfig (some ⟨t, some doc⟩) p config_path).1 = some v) := by
  constructor
  · simp only [getConfig, checkConfigFileUpdate, hv]
  · intro t doc hnot
    have hpres := checkConfigFileUpdate_find_not_in t doc p config_path hnot
    rw [hv] at hpres
    simp only [getConfig, hpres]

/-- C8 witness: pDemoSet overrides video.dpi = 120; with the file
deleted, and with the file re-parsed containing only general.other,
get still returns 120 rather than the base default 96. -/
theorem c8_witness :
    (getConfig none pDemoSet ⟨"video", "dpi"⟩).1 = some (Json.number_integer 120) ∧
    (getConfig (some ⟨1, some otherDoc⟩) pDemoSet ⟨"video", "dpi"⟩).1 =
      some (Json.number_integer 120) := by
  have h := c8_merge_additive pDemoSet ⟨"video", "dpi"⟩ (Json.number_integer 120) rfl
  refine ⟨h.1, h.2 1 otherDoc ?_⟩
  intro w hw
  have hw2 := List.mem_singleton.mp
    (show _ ∈ [("general", "other", Json.number_integer 1)] from hw)
  have hcat : ("video" : String) = "general" := congrArg Prod.fst hw2
  exact absurd hcat (by decide)

theorem TableInvariant_minsert (base : List (ConfigPath × ConfigBaseData))
    (user : List (ConfigPath × Json)) (k : ConfigPath) (v : Json) (bd : ConfigBaseData)
    (h : TableInvariant base user) (hb : mfind base k = some bd)
    (ht : bd.m_type = getConfigType v) : TableInvariant base (minsert user k v) := by
  intro path w hw
  by_cases hk : k = path
  · subst hk
    rw [mfind_minsert_self] at hw
    cases Option.some.inj hw
    exact ⟨bd, hb, ht⟩
  · rw [mfind_minsert_ne _ _ _ _ hk] at hw
    exact h path w hw

theorem mergeStep_invariant (p : ConfigParser) (e : String × String × Json)
    (h : ConfigInvariant p) : ConfigInvariant (mergeStep p e) := by
  rcases hb : mfind p.m_base_config ⟨e.1, e.2.1⟩ with _ | bd
  · rw [mergeStep_skip_notInBase p e hb]; exact h
  · by_cases ht : bd.m_type = getConfigType e.2.2
    · rcases hu : mfind p.m_user_config ⟨e.1, e.2.1⟩ with _ | old
      · rw [mergeStep_newEntry p e bd hb ht hu]
        exact TableInvariant_minsert _ _ _ _ _ h hb ht
      · cases he : jeq old e.2.2
        · rw [mergeStep_changedEntry p e bd old hb ht hu he]
          exact TableInvariant_minsert _ _ _ _ _ h hb ht
        · rw [mergeStep_sameEntry p e bd old hb ht hu he]
          exact TableInvariant_minsert _ _ _ _ _ h hb ht
    · rw [mergeStep_skip_wrongType p e bd hb ht]; exact h

theorem foldl_mergeStep_invariant (l : List (String × String × Json)) (p : ConfigParser)
    (h : ConfigInvariant p) : ConfigInvariant (l.foldl mergeStep p) := by
  induction l generalizing p with
  | nil => exact h
  | cons e tl ih => exact ih _ (mergeStep_invariant p e h)

theorem parseUserConfig_invariant (fs : Option UserFile) (p : ConfigParser)
    (h : ConfigInvariant p) : ConfigInvariant (parseUserConfig fs p) := by
  rcases fs with _ | ⟨mt, _ | doc⟩
  · exact h
  · exact h
  · exact foldl_mergeStep_invariant _ _ h

theorem checkConfigFileUpdate_invariant (fs : Option UserFile) (p : ConfigParser)
    (h : ConfigInvariant p) : ConfigInvariant (checkConfigFileUpdate fs p) := by
  rcases fs with _ | f
  · exact h
  · simp only [checkConfigFileUpdate]
    by_cases hm : p.m_last_write = f.mtime
    · rw [if_neg (fun hne => hne hm)]; exact h
    · rw [if_pos hm]
      exact parseUserConfig_invariant _ _ h

theorem construct_invariant (tmpl : List (String × List (String × Json)))
    (fs : Option UserFile) : ConfigInvariant (ConfigParser.construct tmpl fs) := by
  have h0 : ConfigInvariant
      { m_base_config := parseBaseConfig tmpl, m_user_config := [],
        m_last_write := 0, m_updated_config := [], m_updated := false } := by
    intro path v hw
    exact Option.noConfusion hw
  have h1 := parseUserConfig_invariant fs _ h0
  rcases fs with _ | f
  · exact h1
  · exact h1

theorem setConfig_invariant (fs : Option UserFile) (store : Option Nat)
    (p : ConfigParser) (config_path : ConfigPath) (data : Json)
    (h : ConfigInvariant p) : ConfigInvariant (setConfig fs store p config_path data).2 := by
  have h1 := checkConfigFileUpdate_invariant fs p h
  simp only [setConfig]
  rcases hb : mfind (checkConfigFileUpdate fs p).m_base_config config_path with _ | bd
  · simp only [hb]; exact h1
  · simp only [hb]
    by_cases ht : bd.m_type = getConfigType data
    · rw [if_neg (fun hne => hne ht)]
      rcases hu : mfind (checkConfigFileUpdate fs p).m_user_config config_path with _ | old
      · simp only [hu]
        rcases store with _ | t
        · rw [merase_minsert_of_not_mem _ _ _ hu]
          exact h1
        · exact TableInvariant_minsert _ _ _ _ _ h1 hb ht
      · simp only [hu]
        rcases store with _ | t
        · rw [minsert_minsert_self, minsert_self_of_mfind _ _ _ hu]
          exact h1
        · exact TableInvariant_minsert _ _ _ _ _ h1 hb ht
    · rw [if_pos ht]; exact h1

theorem getConfig_invariant (fs : Option UserFile) (p : ConfigParser)
    (config_path : ConfigPath) (h : ConfigInvariant p) :
    ConfigInvariant (getConfig fs p config_path).2 := by
  have h1 := checkConfigFileUpdate_invariant fs p h
  simp only [getConfig]
  rcases hu : mfind (checkConfigFileUpdate fs p).m_user_config config_path with _ | v
  · simp only [hu]
    rcases hb : mfind (checkConfigFileUpdate fs p).m_base_config config_path with _ | bd <;>
      simp only [hb] <;> exact h1
  · simp only [hu]; exact h1

/-- C9: the store invariant (every user-table path is in the base table
with matching classified type) holds after construction and is
preserved by get, set (any persistence outcome), wasUpdated,
updatedConfigs, and the drift check with its merge. -/
theorem c9_invariant_preservation :
    (∀ tmpl fs, ConfigInvariant (ConfigParser.construct tmpl fs)) ∧
    (∀ fs p config_path, ConfigInvariant p →
      ConfigInvariant (getConfig fs p config_path).2) ∧
    (∀ fs store p config_path data, ConfigInvariant p →
      ConfigInvariant (setConfig fs store p config_path data).2) ∧
    (∀ fs p, ConfigInvariant p → ConfigInvariant (wasUpdated fs p).2) ∧
    (∀ p, ConfigInvariant p → ConfigInvariant (updatedConfigs p).2) ∧
    (∀ fs p, ConfigInvariant p → ConfigInvariant (checkConfigFileUpdate fs p)) := by
  refine ⟨construct_invariant,
          getConfig_invariant,
          setConfig_invariant,
          ?_, ?_,
          checkConfigFileUpdate_invariant⟩
  · intro fs p h
    simp only [wasUpdated]
    exact checkConfigFileUpdate_invariant fs p h
  · intro p h
    simp only [updatedConfigs]
    exact h

/-- C9 witness: the invariant holds of the parser constructed from the
example template, and is preserved by a concrete set on pDemoSet. -/
theorem c9_witness :
    ConfigInvariant (ConfigParser.construct mirroringTemplate none) ∧
    ConfigInvariant
      (setConfig none (some 1) pDemoSet ⟨"video", "dpi"⟩ (Json.number_integer 150)).2 := by
  have hinv : ConfigInvariant pDemoSet := by
    intro path v hw
    by_cases hp : (⟨"video", "dpi"⟩ : ConfigPath) = path
    · subst hp
      have hv := Option.some.inj (show some (Json.number_integer 120) = some v from hw)
      exact ⟨ConfigBaseData.make (Json.number_unsigned 96) "DPI" "Display resolution",
             rfl, by rw [← hv]; rfl⟩
    · simp [pDemoSet, pDemo, mfind, hp] at hw
  exact ⟨c9_invariant_preservation.1 mirroringTemplate none,
         c9_invariant_preservation.2.2.1 none (some 1) pDemoSet ⟨"video", "dpi"⟩
           (Json.number_integer 150) hinv⟩

/-- C10: every set that returns Ok appends the path to the change queue
and raises the updated flag, with no comparison against the previously
stored value (so writing a value equal to the stored one still records
a change); the merge loop of parseUserConfig, by contrast, compares the
old and new values and records nothing when they are equal.  hq frames
out a simultaneous external edit in the first part. -/
theorem c10_ok_set_always_records :
    (∀ fs t p config_path data,
      checkConfigFileUpdate fs p = p →
      (setConfig fs (some t) p config_path data).1 = SetStatus.Ok →
      (setConfig fs (some t) p config_path data).2.m_updated = true ∧
      (setConfig fs (some t) p config_path data).2.m_updated_config =
        p.m_updated_config ++ [config_path]) ∧
    (∀ p c n v old bd,
      mfind p.m_base_config ⟨c, n⟩ = some bd →
      bd.m_type = getConfigType v →
      mfind p.m_user_config ⟨c, n⟩ = some old →
      jeq old v = true →
      (mergeStep p (c, n, v)).m_updated_config = p.m_updated_config ∧
      (mergeStep p (c, n, v)).m_updated = p.m_updated) := by
  constructor
  · intro fs t p config_path data hq hOk
    simp only [setConfig, hq] at hOk ⊢
    rcases hb : mfind p.m_base_config config_path with _ | bd
    · simp only [hb] at hOk
      exact SetStatus.noConfusion hOk
    · simp only [hb] at hOk ⊢
      by_cases ht : bd.m_type = getConfigType data
      · rw [if_neg (fun hne => hne ht)] at hOk ⊢
        rcases hu : mfind p.m_user_config config_path with _ | old
        · simp only [hu] at hOk ⊢
          exact ⟨trivial, trivial⟩
        · simp only [hu] at hOk ⊢
          exact ⟨trivial, trivial⟩
      · rw [if_pos ht] at hOk
        exact SetStatus.noConfusion hOk
  · intro p c n v old bd hb ht hu he
    rw [mergeStep_sameEntry p (c, n, v) bd old hb ht hu he]
    exact ⟨rfl, rfl⟩

/-- C10 witness: writing video.dpi = 120 on pDemoSet, whose stored
override already is 120, still returns Ok, raises the flag and appends
the path; the merge step on the same equal value records nothing. -/
theorem c10_witness :
    ((setConfig none (some 1) pDemoSet ⟨"video", "dpi"⟩
        (Json.number_integer 120)).2.m_updated = true ∧
     (setConfig none (some 1) pDemoSet ⟨"video", "dpi"⟩
        (Json.number_integer 120)).2.m_updated_config =
       pDemoSet.m_updated_config ++ [⟨"video", "dpi"⟩]) ∧
    ((mergeStep pDemoSet ("video", "dpi", Json.number_integer 120)).m_updated_config =
       pDemoSet.m_updated_config ∧
     (mergeStep pDemoSet ("video", "dpi", Json.number_integer 120)).m_updated =
       pDemoSet.m_updated) := by
  constructor
  · exact c10_ok_set_always_records.1 none 1 pDemoSet ⟨"video", "dpi"⟩
      (Json.number_integer 120) rfl rfl
  · exact c10_ok_set_always_records.2 pDemoSet "video" "dpi"
      (Json.number_integer 120) (Json.number_integer 120)
      (ConfigBaseData.make (Json.number_unsigned 96) "DPI" "Display resolution")
      rfl rfl rfl (by simp [jeq])
